import Mathlib

/-!
Verification development for the lingua-franca localized-dispatch and
rule-cascade formatting engine.

The definitions below are shallow embeddings of the Python source:

* `lingua_franca/common.py` — language-code helpers, the global active-language
  state, `populate_localized_function_dict`, `set_active_langs` and
  `localized_function_caller`;
* `lingua_franca/Formatter.py` — `DateTimeFormat._number_strings`,
  `DateTimeFormat._format_string`, the decade/hundreds/thousand/year cascades,
  `DateTimeFormat.date_format`, the convenience wrappers (`nice_number`,
  `nice_time`, `pronounce_number`, `nice_part_of_day`) and `join_list`;
* `lingua_franca/bracket_expansion.py` is not part of the source tree, so the
  `SentenceTreeParser` it provides is modelled from the specification.

Python dictionaries are embedded as association lists (`dictGet` is `dict.get`:
first matching key wins; the embedded constructions never produce duplicate
keys), Python exceptions as an explicit error type threaded through `Except`,
and the dynamic import/call of a per-language implementation as an environment
record plus an invocation descriptor naming the module, function and the
keyword arguments actually passed.
-/

/-- Python `dict.get` on an association list. -/
def dictGet {α : Type} (k : String) : List (String × α) → Option α
  | [] => none
  | (k2, v) :: t => if k = k2 then some v else dictGet k t

/-- Python truthiness of an optional string (`None` and `""` are falsy). -/
def pyFalsy : Option String → Bool
  | none => true
  | some s => s = ""

/-- Python `a or b` for strings: `b` when `a` is falsy (empty), else `a`. -/
def pyOrStr (a b : String) : String :=
  if a = "" then b else a

/-- Python `d.get(k) or b`: the stored value unless the key is missing or the
stored value is falsy, in which case `b`. -/
def pyGetOr (tbl : List (String × String)) (k b : String) : String :=
  match dictGet k tbl with
  | none => b
  | some v => pyOrStr v b

/-- Python `str(x)` on an optional string: `None` prints as `"None"`
(`str.format` renders a `None` substitution value this way). -/
def optStr : Option String → String
  | some s => s
  | none => "None"

/-- Equality of `Except` values is decidable when both components' is. -/
instance {ε α : Type} [DecidableEq ε] [DecidableEq α] : DecidableEq (Except ε α) :=
  fun x y =>
    match x, y with
    | .ok a, .ok b =>
      if h : a = b then .isTrue (h ▸ rfl) else .isFalse fun hc => h (Except.ok.inj hc)
    | .error a, .error b =>
      if h : a = b then .isTrue (h ▸ rfl) else .isFalse fun hc => h (Except.error.inj hc)
    | .ok _, .error _ => .isFalse Except.noConfusion
    | .error _, .ok _ => .isFalse Except.noConfusion

/-- Python `s.split("-")[0]`: the text before the first hyphen (the whole
string when it has no hyphen). -/
def primarySubtag (s : String) : String :=
  String.mk (s.data.takeWhile fun c => c ≠ '-')

/-- `common.py` line 6: the supported primary language codes. -/
def SUPPORTED_LANGUAGES : List String :=
  ["cs", "da", "de", "en", "es", "fr", "hu", "it", "nl", "pt", "sv"]

/-- The Python exceptions raised by the embedded code.  `UnsupportedLanguageError`
and `FunctionNotLocalizedError` are declared in `common.py` as subclasses of
`NotImplementedError`; the two `ModuleNotFoundError` sites of
`localized_function_caller` are kept apart as `moduleNotRegistered` (module
never populated) and `languageNotLoaded` (language missing from the module's
populated dictionary). -/
inductive LFError where
  | unsupportedLanguage (lang : String)
  | moduleNotRegistered (mod : String)
  | languageNotLoaded (mod lang : String)
  | keyError
  | functionNotLocalized
  | notImplemented
  | indexError
  | typeError
  deriving DecidableEq, Repr

/-- Python `isinstance(e, NotImplementedError)` for the errors above. -/
def LFError.isNotImplementedError : LFError → Bool
  | .unsupportedLanguage _ => true
  | .functionNotLocalized => true
  | .notImplemented => true
  | _ => false

/-- A registry value: a bound implementation's declared parameter names
(`inspect.signature(...).parameters`), or the not-implemented sentinel (a
stored `FunctionNotLocalizedError`). -/
inductive RegEntry where
  | impl (params : List String)
  | notLocalized
  deriving DecidableEq, Repr

/-- Per-language function dictionary: function name to entry. -/
abbrev LangDict := List (String × RegEntry)

/-- Per-module dictionary: language code to `LangDict`. -/
abbrev ModDict := List (String × LangDict)

/-- `_localized_functions`: module name to `ModDict`. -/
abbrev Registry := List (String × ModDict)

/-- The import environment: which per-language implementation modules exist,
which functions they implement (with their declared parameter names), each
module's `_REGISTERED_FUNCTIONS` catalog, and the value an invoked
implementation returns. -/
structure Env where
  moduleExists : String → String → Bool
  implOf : String → String → String → Option (List String)
  registeredFunctions : String → List String
  callResult : String → String → List (String × String) → String

/-- The process-wide state of `common.py`: `__default_lang`, `__loaded_langs`
and `_localized_functions`. -/
structure State where
  defaultLang : String
  loadedLangs : List String
  registry : Registry
  deriving Repr, DecidableEq

/-- `common.py` `get_full_lang_code` (lines 104-116): a falsy argument means
the current default; a falsy result falls back to `"en-us"`. -/
def getFullLangCode (dflt : String) (lang : Option String) : String :=
  let l := if pyFalsy lang then dflt else lang.getD ""
  if l = "" then "en-us" else l

/-- `common.py` `get_primary_lang_code` (lines 87-101): the text before the
first hyphen of the full code. -/
def getPrimaryLangCode (dflt : String) (lang : Option String) : String :=
  primarySubtag (getFullLangCode dflt lang)

/-- The language code `localized_function_caller` resolves against: a falsy
`lang` is replaced by the default language, then reduced to its primary
subtag. -/
def effectiveLangCode (dflt : String) (lang : Option String) : String :=
  getPrimaryLangCode dflt (if pyFalsy lang then some dflt else lang)

/-- `populate_localized_function_dict` inner loop (lines 236-249): one
language's function dictionary, binding the implementation's signature when
`getattr` succeeds and the not-implemented sentinel otherwise. -/
def buildLangDict (env : Env) (mod lang : String) : LangDict :=
  (env.registeredFunctions mod).map fun f =>
    (f, match env.implOf mod lang f with
        | some ps => RegEntry.impl ps
        | none => RegEntry.notLocalized)

/-- `populate_localized_function_dict` (lines 194-253): for each language the
key is created first; when the language's module cannot be imported the entry
stays an empty dictionary (`continue` after the warning). -/
def populateDict (env : Env) (mod : String) (langs : List String) : ModDict :=
  langs.map fun l =>
    (l, if env.moduleExists mod l then buildLangDict env mod l else [])

/-- `common.py` `_refresh_function_dict` (lines 44-46): repopulate every
previously-populated module against the loaded language list. -/
def refreshFunctionDict (env : Env) (st : State) : State :=
  { st with registry := st.registry.map fun p => (p.1, populateDict env p.1 st.loadedLangs) }

/-- `common.py` `set_default_lang` (lines 72-84). -/
def setDefaultLang (env : Env) (st : State) (code : String) : State :=
  let st := if st.defaultLang ≠ code then { st with defaultLang := code } else st
  if st.defaultLang ∈ st.loadedLangs then st
  else
    let st := { st with loadedLangs := st.defaultLang :: st.loadedLangs }
    refreshFunctionDict env st

/-- `dict.fromkeys` deduplication: keep the first occurrence of each element,
preserving order. -/
def pyDedup (l : List String) : List String :=
  l.foldl (fun acc x => if x ∈ acc then acc else acc ++ [x]) []

/-- `common.py` `set_active_langs` (lines 15-41) for a list argument: map each
code to its primary subtag, deduplicate, replace the loaded set, change the
default (to `get_full_lang_code(loaded[0])`) when `override_default` is set or
the current default's primary code is no longer loaded, and refresh every
populated module.  `__loaded_langs[0]` on an empty loaded list raises
`IndexError`. -/
def setActiveLangs (env : Env) (langs : List String) (overrideDefault : Bool)
    (st : State) : Except LFError State :=
  let mapped := langs.map fun l => getPrimaryLangCode st.defaultLang (some l)
  let loaded := pyDedup mapped
  let st1 : State := { st with loadedLangs := loaded }
  if overrideDefault || (getPrimaryLangCode st.defaultLang (some st.defaultLang) ∉ loaded) then
    match loaded with
    | [] => .error .indexError
    | l0 :: _ =>
      let st2 := setDefaultLang env st1 (getFullLangCode st.defaultLang (some l0))
      .ok (refreshFunctionDict env st2)
  else
    .ok (refreshFunctionDict env st1)

/-- A successful dispatch: the imported module name (`"lang." + mod + "_" +
lang_code` without the package prefix), the attribute looked up
(`func_name + "_" + lang_code`) and the keyword arguments actually passed. -/
abbrev CallDescr := String × String × List (String × String)

/-- The check sequence of `localized_function_caller` (common.py lines
161-191) after the language code has been resolved: supported-language check,
module-populated check, language-loaded check, entry lookup (`KeyError` on a
missing name), sentinel check, and finally the invocation descriptor: module,
function, and the caller-supplied arguments filtered to the implementation's
declared parameter names. -/
def dispatchResolve (st : State) (mod funcName langCode : String)
    (args : List (String × String)) : Except LFError CallDescr :=
  if langCode ∉ SUPPORTED_LANGUAGES then
    .error (.unsupportedLanguage langCode)
  else
    match dictGet mod st.registry with
    | none => .error (.moduleNotRegistered mod)
    | some modDict =>
      match dictGet langCode modDict with
      | none => .error (.languageNotLoaded mod langCode)
      | some langDict =>
        match dictGet funcName langDict with
        | none => .error .keyError
        | some (.notLocalized) => .error .functionNotLocalized
        | some (.impl ps) =>
          .ok (mod ++ "_" ++ langCode, funcName ++ "_" ++ langCode,
               args.filter fun a => ps.contains a.1)

/-- `common.py` `localized_function_caller` (lines 142-191): a falsy `lang`
falls back to the default language, the code is reduced to its primary subtag,
and the check sequence runs. -/
def localizedFunctionCaller (st : State) (mod funcName : String)
    (lang : Option String) (args : List (String × String)) :
    Except LFError CallDescr :=
  let lang := if pyFalsy lang then some st.defaultLang else lang
  let langCode := getPrimaryLangCode st.defaultLang lang
  dispatchResolve st mod funcName langCode args

/-- The registry entry `localized_function_caller` consults for
`(mod, langCode, funcName)`. -/
def lookupEntry (st : State) (mod langCode funcName : String) : Option RegEntry :=
  (dictGet mod st.registry).bind fun md =>
    (dictGet langCode md).bind fun ld => dictGet funcName ld

/-- Characters stripped by Python `str.strip()` (the ASCII whitespace set). -/
def isPySpace (c : Char) : Bool :=
  c = ' ' || c = '\t' || c = '\n' || c = '\r' || c = '\x0b' || c = '\x0c'

/-- `re.sub(' +', ' ', s)` on a character list: every run of consecutive space
characters becomes a single space. -/
def collapseSpaces : List Char → List Char
  | [] => []
  | [c] => [c]
  | c1 :: c2 :: t =>
    if c1 = ' ' && c2 = ' ' then collapseSpaces (c2 :: t)
    else c1 :: collapseSpaces (c2 :: t)

/-- Python `str.strip()`: drop leading and trailing whitespace characters. -/
def pyStrip (l : List Char) : List Char :=
  ((l.dropWhile isPySpace).reverse.dropWhile isPySpace).reverse

/-- `re.sub(' +', ' ', s).strip()` — the final normalization of
`DateTimeFormat.year_format` (Formatter.py lines 218-226). -/
def normalizeSpace (s : String) : String :=
  String.mk (pyStrip (collapseSpaces s.data))

/-- One piece of a `str.format` template: literal text or a `\x7bname\x7d`
substitution field.  Templates live in the locale JSON as strings; they are
embedded pre-parsed. -/
inductive TmplPart where
  | lit (s : String)
  | var (v : String)
  deriving DecidableEq, Repr

/-- A parsed `str.format` template. -/
abbrev Tmpl := List TmplPart

/-- Python `template.format(**bindings)`: substitution of every field, `none`
when a field's name is missing from the bindings (Python raises `KeyError`). -/
def renderTmpl : Tmpl → (String → Option String) → Option String
  | [], _ => some ""
  | .lit s :: rest, b => (renderTmpl rest b).map (fun r => s ++ r)
  | .var v :: rest, b =>
    match b v with
    | none => none
    | some w => (renderTmpl rest b).map (fun r => w ++ r)

/-- One numbered rule of a locale category: the compiled regex predicate
(`e['re'].match`, embedded as an abstract `String → Bool`) and the rule's
format template (`e['format']`). -/
structure FormatRule where
  re : String → Bool
  format : Tmpl

/-- One rule category of the locale data (`decade_format`, `hundreds_format`,
`thousand_format`, `year_format`): the required `default` template and the
rules at keys `"1"`, `"2"`, … in ascending index order.  The cache loop
(Formatter.py lines 92-99) compiles rules at consecutive indices from 1, so
the table is dense and is embedded as a list whose position `i` holds the rule
with key `str(i+1)`. -/
structure SectionCfg where
  default : Tmpl
  rules : List FormatRule

/-- The `while` loop of `DateTimeFormat._format_string` (lines 139-144):
return the format of the first rule whose predicate accepts `s`. -/
def findFormat (rules : List FormatRule) (s : String) (dflt : Tmpl) : Tmpl :=
  match rules with
  | [] => dflt
  | r :: rs => if r.re s then r.format else findFormat rs s dflt

/-- `DateTimeFormat._format_string` (Formatter.py lines 137-145). -/
def formatString (sec : SectionCfg) (n : Nat) : Tmpl :=
  findFormat sec.rules (toString n) sec.default

/-- The locale `number` word table: numeric string keys to localized words. -/
abbrev WordTable := List (String × String)

/-- `NUMBER_TUPLE` (Formatter.py lines 24-27).  Twelve fields carry the
looked-up word or its literal-string fallback; `x_in_0x00` is `Option String`
because its source line applies the `or` fallback inside the `get` argument,
leaving the lookup itself without a fallback (it is Python `None` when the key
is absent). -/
structure NumberTuple where
  x : String
  xx : String
  x0 : String
  x_in_x0 : String
  xxx : String
  x00 : String
  x_in_x00 : String
  xx00 : String
  xx_in_xx00 : String
  x000 : String
  x_in_x000 : String
  x0_in_x000 : String
  x_in_0x00 : Option String
  deriving DecidableEq, Repr

/-- `DateTimeFormat._number_strings` (Formatter.py lines 101-135) for a
non-negative integer.  Each `int(a / b)` on these non-negative sub-10000
values equals natural division. -/
def numberStrings (tbl : WordTable) (n : Nat) : NumberTuple where
  x := pyGetOr tbl (toString (n % 10)) (toString (n % 10))
  xx := pyGetOr tbl (toString (n % 100)) (toString (n % 100))
  x0 := pyGetOr tbl (toString (n % 100 / 10 * 10)) (toString (n % 100 / 10 * 10))
  x_in_x0 := pyGetOr tbl (toString (n % 100 / 10)) (toString (n % 100 / 10))
  xxx := pyGetOr tbl (toString (n % 1000)) (toString (n % 1000))
  x00 := pyGetOr tbl (toString (n % 1000 / 100 * 100)) (toString (n % 1000 / 100 * 100))
  x_in_x00 := pyGetOr tbl (toString (n % 1000 / 100)) (toString (n % 1000 / 100))
  xx00 := pyGetOr tbl (toString (n % 10000 / 100 * 100)) (toString (n % 10000 / 100 * 100))
  xx_in_xx00 := pyGetOr tbl (toString (n % 10000 / 100)) (toString (n % 10000 / 100))
  x000 := pyGetOr tbl (toString (n % 10000 / 1000 * 1000)) (toString (n % 10000 / 1000 * 1000))
  x_in_x000 := pyGetOr tbl (toString (n % 10000 / 1000)) (toString (n % 10000 / 1000))
  x0_in_x000 := pyGetOr tbl (toString (n % 10000 / 1000 * 10)) (toString (n % 10000 / 1000 * 10))
  x_in_0x00 := dictGet (pyOrStr (toString (n % 1000 / 100)) (toString (n % 1000 / 100))) tbl

/-- One language's `date_time.json` content, after the cache step compiled the
rule regexes: the `number` word table, the four rule categories, the
`year_format` `bc` marker, the calendar word tables and the `date_format`
templates. -/
structure DTConfig where
  number : WordTable
  decade_format : SectionCfg
  hundreds_format : SectionCfg
  thousand_format : SectionCfg
  year_format : SectionCfg
  bc : String
  weekday : WordTable
  month : WordTable
  date : WordTable
  date_format : List (String × Tmpl)

/-- `DateTimeFormat._decade_format` (Formatter.py lines 147-151). -/
def decadeFormat (cfg : DTConfig) (n : Nat) (nt : NumberTuple) : Option String :=
  renderTmpl (formatString cfg.decade_format (n % 100)) fun v =>
    if v = "x" then some nt.x
    else if v = "xx" then some nt.xx
    else if v = "x0" then some nt.x0
    else if v = "x_in_x0" then some nt.x_in_x0
    else if v = "number" then some (toString (n % 100))
    else none

/-- `DateTimeFormat._number_format_hundreds` (Formatter.py lines 153-159). -/
def numberFormatHundreds (cfg : DTConfig) (n : Nat) (nt : NumberTuple)
    (formattedDecade : String) : Option String :=
  renderTmpl (formatString cfg.hundreds_format (n % 1000)) fun v =>
    if v = "xxx" then some nt.xxx
    else if v = "x00" then some nt.x00
    else if v = "x_in_x00" then some nt.x_in_x00
    else if v = "formatted_decade" then some formattedDecade
    else if v = "number" then some (toString (n % 1000))
    else none

/-- `DateTimeFormat._number_format_thousand` (Formatter.py lines 161-173).
The `x_in_0x00` binding renders the Python value, so a `None` field prints as
`"None"` (`optStr`). -/
def numberFormatThousand (cfg : DTConfig) (n : Nat) (nt : NumberTuple)
    (formattedDecade formattedHundreds : String) : Option String :=
  renderTmpl (formatString cfg.thousand_format (n % 10000)) fun v =>
    if v = "x_in_x00" then some nt.x_in_x00
    else if v = "xx00" then some nt.xx00
    else if v = "xx_in_xx00" then some nt.xx_in_xx00
    else if v = "x000" then some nt.x000
    else if v = "x_in_x000" then some nt.x_in_x000
    else if v = "x0_in_x000" then some nt.x0_in_x000
    else if v = "x_in_0x00" then some (optStr nt.x_in_0x00)
    else if v = "formatted_decade" then some formattedDecade
    else if v = "formatted_hundreds" then some formattedHundreds
    else if v = "number" then some (toString (n % 10000))
    else none

/-- `DateTimeFormat.year_format` (Formatter.py lines 205-226) before the final
`re.sub(' +', ' ', ...).strip()`: the decade, hundreds and thousand cascades
chained into the substituted top-level `year_format` template, with the
optional `bc` marker. -/
def yearFormatRaw (cfg : DTConfig) (year : Nat) (bc : Bool) : Option String :=
  let nt := numberStrings cfg.number year
  let formattedBC := if bc then cfg.bc else ""
  (decadeFormat cfg year nt).bind fun fd =>
  (numberFormatHundreds cfg year nt fd).bind fun fh =>
  (numberFormatThousand cfg year nt fd fh).bind fun ft =>
  renderTmpl (formatString cfg.year_format year) fun v =>
    if v = "year" then some (toString year)
    else if v = "century" then some (toString (year / 100))
    else if v = "decade" then some (toString (year % 100))
    else if v = "formatted_hundreds" then some fh
    else if v = "formatted_decade" then some fd
    else if v = "formatted_thousand" then some ft
    else if v = "bc" then some formattedBC
    else none

/-- `DateTimeFormat.year_format` (Formatter.py lines 205-226): all template
substitutions, then whitespace collapsing and trimming applied once to the
result. -/
def yearFormat (cfg : DTConfig) (year : Nat) (bc : Bool) : Option String :=
  (yearFormatRaw cfg year bc).map normalizeSpace

/-- A Python `datetime`'s calendar date (the time of day never influences the
embedded functions: the source compares `.date()` values and the
year/month/day attributes). -/
structure Date where
  year : Nat
  month : Nat
  day : Nat
  deriving DecidableEq, Repr

/-- Proleptic-Gregorian day number of a date (days-from-civil; epoch
1970-01-01 = 0).  Adding a `datetime.timedelta(days=k)` shifts this number by
`k`, and two valid dates are equal exactly when their day numbers are. -/
def toOrdinal (d : Date) : Int :=
  let y : Int := if d.month ≤ 2 then (d.year : Int) - 1 else (d.year : Int)
  let era : Int := Int.fdiv y 400
  let yoe : Int := y - era * 400
  let mp : Int := if d.month ≤ 2 then (d.month : Int) + 9 else (d.month : Int) - 3
  let doy : Int := Int.fdiv (153 * mp + 2) 5 + (d.day : Int) - 1
  let doe : Int := yoe * 365 + Int.fdiv yoe 4 - Int.fdiv yoe 100 + doy
  era * 146097 + doe - 719468

/-- Python `datetime.weekday()` (Monday = 0), computed from the day number
(1970-01-01 was a Thursday). -/
def pyWeekday (d : Date) : Int :=
  (toOrdinal d + 3) % 7

/-- The `format_str` selection of `DateTimeFormat.date_format` (Formatter.py
lines 176-190): with a reference date, the year-elision checks set the key
first and the tomorrow/today/yesterday comparisons then overwrite it.
`tomorrow.date() == dt.date()` is embedded as equality of day numbers shifted
by one, and likewise for today and yesterday. -/
def dateFormatKey (dt : Date) (now : Option Date) : String :=
  match now with
  | none => "date_full"
  | some now =>
    let fs :=
      if dt.year = now.year then
        if dt.month = now.month ∧ dt.day > now.day then "date_full_no_year_month"
        else "date_full_no_year"
      else "date_full"
    if toOrdinal dt = toOrdinal now + 1 then "tomorrow"
    else if toOrdinal dt = toOrdinal now then "today"
    else if toOrdinal dt = toOrdinal now - 1 then "yesterday"
    else fs

/-- `DateTimeFormat.date_format` (Formatter.py lines 175-196): fetch the
template for the selected key and substitute the weekday, month and day words
and the formatted year. -/
def dateFormat (cfg : DTConfig) (dt : Date) (now : Option Date) : Option String :=
  let key := dateFormatKey dt now
  (yearFormat cfg dt.year false).bind fun fy =>
  (dictGet key cfg.date_format).bind fun tmpl =>
  (dictGet (toString (pyWeekday dt)) cfg.weekday).bind fun w =>
  (dictGet (toString dt.month) cfg.month).bind fun mo =>
  (dictGet (toString dt.day) cfg.date).bind fun dayWord =>
  renderTmpl tmpl fun v =>
    if v = "weekday" then some w
    else if v = "month" then some mo
    else if v = "day" then some dayWord
    else if v = "formatted_year" then some fy
    else none

/-- `Formatter.call_localized_function` (Formatter.py lines 39-41): dispatch a
`"format"`-module function through the localized caller and invoke the
resolved implementation (`Env.callResult` supplies the invocation's return
value). -/
def callLocalizedFunction (env : Env) (st : State) (funcName : String)
    (lang : Option String) (args : List (String × String)) :
    Except LFError String :=
  (localizedFunctionCaller st "format" funcName lang args).map fun d =>
    env.callResult d.1 d.2.1 d.2.2

/-- The `try/except NotImplementedError` pattern of `nice_number`, `nice_time`
and `pronounce_number` (Formatter.py lines 248-253, 273-278, 296-302): on a
`NotImplementedError` the wrapper warns (the Boolean records that a warning
was emitted) and returns the raw string form of its input. -/
def degradeToRaw (r : Except LFError String) (raw : String) :
    Except LFError String × Bool :=
  match r with
  | .ok v => (.ok v, false)
  | .error e => if e.isNotImplementedError then (.ok raw, true) else (.error e, false)

/-- `Formatter.nice_number` (Formatter.py lines 232-253); `args` stands for the
`locals().items()` the wrapper forwards. -/
def niceNumber (env : Env) (st : State) (number : Int) (lang : Option String)
    (args : List (String × String)) : Except LFError String × Bool :=
  degradeToRaw (callLocalizedFunction env st "nice_number" lang args) (toString number)

/-- `Formatter.nice_time` (Formatter.py lines 255-278); `dtStr` is `str(dt)`. -/
def niceTime (env : Env) (st : State) (dtStr : String) (lang : Option String)
    (args : List (String × String)) : Except LFError String × Bool :=
  degradeToRaw (callLocalizedFunction env st "nice_time" lang args) dtStr

/-- `Formatter.pronounce_number` (Formatter.py lines 280-302). -/
def pronounceNumber (env : Env) (st : State) (number : Int) (lang : Option String)
    (args : List (String × String)) : Except LFError String × Bool :=
  degradeToRaw (callLocalizedFunction env st "pronounce_number" lang args) (toString number)

/-- `Formatter.nice_part_of_day` (Formatter.py lines 527-532): no
`try/except` — a dispatch error propagates; a falsy return value raises
`NotImplementedError`. -/
def nicePartOfDay (env : Env) (st : State) (lang : Option String)
    (args : List (String × String)) : Except LFError String :=
  match callLocalizedFunction env st "nice_part_of_day" lang args with
  | .error e => .error e
  | .ok r => if r = "" then .error .notImplemented else .ok r

/-- A Python value handed to `join_list`: a string or a non-string (embedded
by its `str()` form). -/
inductive PyVal where
  | str (s : String)
  | intv (n : Int)
  deriving DecidableEq, Repr

/-- Python `str(v)`. -/
def pyValStr : PyVal → String
  | .str s => s
  | .intv n => toString n

/-- `Formatter.join_list` (Formatter.py lines 455-481).  `translate` stands
for `self._translate_word(connector, lang)`.  The final element is
concatenated with `+`, which raises `TypeError` when it is not a string. -/
def joinList (translate : String → String) (items : List PyVal)
    (connector : String) (sep : Option String) : Except LFError String :=
  match items with
  | [] => .ok ""
  | [x] => .ok (pyValStr x)
  | _ =>
    let sepEff := match sep with
      | none => ", "
      | some s => if s = "" then ", " else s ++ " "
    let front := String.intercalate sepEff ((items.dropLast).map pyValStr)
    match items.getLast? with
    | some (.str last) => .ok (front ++ " " ++ translate connector ++ " " ++ last)
    | some (.intv _) => .error .typeError
    | none => .ok ""

/-- Modelled from the spec: `lingua_franca/bracket_expansion.py` (the
`SentenceTreeParser` that `Formatter.expand_parentheses` delegates to) is not
part of the source tree.  A sentence tree per spec §4.5: plain tokens and
alternation groups, where a group holds `|`-separated alternatives and groups
may nest. -/
inductive SentItem where
  | tok (s : String)
  | grp (alts : List (List SentItem))
  deriving Repr

/-- One open group while parsing: the completed alternatives and the current
partial alternative. -/
abbrev SentFrame := List (List SentItem) × List SentItem

/-- Modelled from the spec (§4.5): left-to-right scan building the sentence
tree.  Plain tokens accumulate into the current partial sequence; an opening
token starts a nested group; `|` at the current nesting depth closes the
current alternative and starts a new one (at the top level, outside any group,
it is kept as a plain token); a closing token completes the group's
alternatives; unbalanced input fails with a syntax error. -/
def parseSentGo : List SentItem → List SentFrame → List String →
    Except String (List SentItem)
  | acc, [], [] => .ok acc
  | _, _ :: _, [] => .error "unbalanced parentheses: unclosed group"
  | acc, stack, t :: ts =>
    if t = "(" then parseSentGo acc (([], []) :: stack) ts
    else if t = "|" then
      match stack with
      | [] => parseSentGo (acc ++ [SentItem.tok t]) [] ts
      | (da, cur) :: rest => parseSentGo acc ((da ++ [cur], []) :: rest) ts
    else if t = ")" then
      match stack with
      | [] => .error "unbalanced parentheses: unmatched closing token"
      | (da, cur) :: rest =>
        let g := SentItem.grp (da ++ [cur])
        match rest with
        | [] => parseSentGo (acc ++ [g]) [] ts
        | (da2, cur2) :: rest2 => parseSentGo acc ((da2, cur2 ++ [g]) :: rest2) ts
    else
      match stack with
      | [] => parseSentGo (acc ++ [SentItem.tok t]) [] ts
      | (da, cur) :: rest => parseSentGo acc ((da, cur ++ [SentItem.tok t]) :: rest) ts

/-- Modelled from the spec: parse a token sequence into a sentence tree. -/
def parseSent (sent : List String) : Except String (List SentItem) :=
  parseSentGo [] [] sent

mutual

/-- Modelled from the spec (§4.5): the expansion of a sentence-tree item
sequence — the Cartesian product of the groups' alternative sets with the
plain tokens kept in place, preserving left-to-right order. -/
def semItems : List SentItem → List (List String)
  | [] => [[]]
  | i :: rest => (semItem i).flatMap fun pre => (semItems rest).map fun r => pre ++ r

/-- The alternative token sequences contributed by one item. -/
def semItem : SentItem → List (List String)
  | .tok s => [[s]]
  | .grp alts => semAlts alts

/-- The union, in order, of the alternatives' expansions. -/
def semAlts : List (List SentItem) → List (List String)
  | [] => []
  | a :: rest => semItems a ++ semAlts rest

end

/-- Modelled from the spec: `Formatter.expand_parentheses` (Formatter.py
lines 484-501) — build the sentence tree and expand it. -/
def expandParentheses (sent : List String) : Except String (List (List String)) :=
  (parseSent sent).map semItems

/-- A token that is not one of the three structural tokens. -/
def plainTok (s : String) : Bool :=
  !(s = "(" || s = ")" || s = "|")

/-- A sentence shape for the claim's statement: a sequence of literal tokens
and non-nested alternation groups, each group a non-empty list of (possibly
empty) alternatives over plain tokens. -/
inductive SentPiece where
  | word (s : String)
  | group (alts : List (List String))
  deriving DecidableEq, Repr

/-- Well-formedness of a `SentPiece`: literal tokens are plain and each group
has at least one alternative, all of whose tokens are plain. -/
def pieceWF : SentPiece → Bool
  | .word s => plainTok s
  | .group alts => !alts.isEmpty && alts.all fun a => a.all plainTok

/-- Well-formedness of a piece sequence. -/
def piecesWF (ps : List SentPiece) : Bool :=
  ps.all pieceWF

/-- Join alternatives with the `|` token. -/
def barJoin : List (List String) → List String
  | [] => []
  | [a] => a
  | a :: rest => a ++ "|" :: barJoin rest

/-- The token sequence a piece sequence denotes: each group written as
`( alt1 | alt2 | … )`. -/
def flattenPieces : List SentPiece → List String
  | [] => []
  | .word s :: r => s :: flattenPieces r
  | .group alts :: r => "(" :: (barJoin alts ++ ")" :: flattenPieces r)

/-- The sentence-tree item a piece parses to. -/
def pieceItems : SentPiece → SentItem
  | .word s => .tok s
  | .group alts => .grp (alts.map fun a => a.map SentItem.tok)

/-- The claim's Cartesian product: every combination formed by picking one
alternative from each group in order, concatenated with the literal tokens
between groups. -/
def bracketProduct : List SentPiece → List (List String)
  | [] => [[]]
  | .word s :: r => (bracketProduct r).map fun t => s :: t
  | .group alts :: r => alts.flatMap fun a => (bracketProduct r).map fun t => a ++ t

/-- A demonstration environment: the `"format"` module exists for the
languages `"en"`, `"fr"` and `"de"`, and only `nice_number` has an
implementation, in `"en"` and `"fr"` alone. -/
def envDemo : Env where
  moduleExists := fun m l => m = "format" && (l = "en" || l = "fr" || l = "de")
  implOf := fun m l f =>
    if m = "format" && f = "nice_number" && (l = "en" || l = "fr") then
      some ["number", "lang", "speech", "denominators"]
    else none
  registeredFunctions := fun m =>
    if m = "format" then
      ["nice_number", "nice_time", "pronounce_number", "nice_response",
       "nice_ordinal", "nice_part_of_day"]
    else []
  callResult := fun _ _ _ => "localized result"

/-- The state after loading only `"en"` and populating `"format"`. -/
def stEn : State where
  defaultLang := "en"
  loadedLangs := ["en"]
  registry := [("format", populateDict envDemo "format" ["en"])]

/-- The state after `set_active_langs(["en", "fr"])` from `stEn`. -/
def stEnFr : State where
  defaultLang := "en"
  loadedLangs := ["en", "fr"]
  registry := [("format", populateDict envDemo "format" ["en", "fr"])]

theorem caller_eq_resolve (st : State) (mod f : String) (lang : Option String)
    (args : List (String × String)) :
    localizedFunctionCaller st mod f lang args =
      dispatchResolve st mod f (effectiveLangCode st.defaultLang lang) args := rfl

theorem lookupEntry_resolve (st : State) (mod f lc : String)
    (args : List (String × String)) (e : RegEntry)
    (hs : lc ∈ SUPPORTED_LANGUAGES)
    (he : lookupEntry st mod lc f = some e) :
    dispatchResolve st mod f lc args =
      match e with
      | .notLocalized => .error .functionNotLocalized
      | .impl ps =>
        .ok (mod ++ "_" ++ lc, f ++ "_" ++ lc,
             args.filter fun a => ps.contains a.1) := by
  unfold lookupEntry at he
  obtain ⟨md, hmd, he⟩ := Option.bind_eq_some.mp he
  obtain ⟨ld, hld, hf⟩ := Option.bind_eq_some.mp he
  unfold dispatchResolve
  rw [if_neg (by simpa using hs)]
  simp only [hmd, hld, hf]
  cases e <;> rfl

/-- C1: the localized dispatcher reduces the language code to its primary
subtag and then checks, in order: the subtag is supported
(`UnsupportedLanguageError` otherwise), the module has been populated
(`ModuleNotFoundError` otherwise), the subtag is among the module's loaded
languages (`ModuleNotFoundError` otherwise), and the registry entry is not the
not-implemented sentinel (`FunctionNotLocalizedError` otherwise).  The first
conjunct needs no assumption on the registry, the later ones assume the
earlier checks passed, exhibiting the order.  The last two conjuncts are the
concrete scenario: with only `"en"` loaded a French resolution fails as
language-not-loaded, and it succeeds after `set_active_langs(["en", "fr"])`
repopulates the registry. -/
theorem c1_dispatch_check_order (st : State) (mod f : String)
    (lang : Option String) (args : List (String × String)) :
    (effectiveLangCode st.defaultLang lang ∉ SUPPORTED_LANGUAGES →
      localizedFunctionCaller st mod f lang args =
        .error (.unsupportedLanguage (effectiveLangCode st.defaultLang lang)))
    ∧ (effectiveLangCode st.defaultLang lang ∈ SUPPORTED_LANGUAGES →
        dictGet mod st.registry = none →
        localizedFunctionCaller st mod f lang args =
          .error (.moduleNotRegistered mod))
    ∧ (∀ md, effectiveLangCode st.defaultLang lang ∈ SUPPORTED_LANGUAGES →
        dictGet mod st.registry = some md →
        dictGet (effectiveLangCode st.defaultLang lang) md = none →
        localizedFunctionCaller st mod f lang args =
          .error (.languageNotLoaded mod (effectiveLangCode st.defaultLang lang)))
    ∧ (∀ md ld, effectiveLangCode st.defaultLang lang ∈ SUPPORTED_LANGUAGES →
        dictGet mod st.registry = some md →
        dictGet (effectiveLangCode st.defaultLang lang) md = some ld →
        dictGet f ld = some .notLocalized →
        localizedFunctionCaller st mod f lang args =
          .error .functionNotLocalized)
    ∧ localizedFunctionCaller stEn "format" "nice_number" (some "fr-fr") [] =
        .error (.languageNotLoaded "format" "fr")
    ∧ (setActiveLangs envDemo ["en", "fr"] true stEn = .ok stEnFr
        ∧ localizedFunctionCaller stEnFr "format" "nice_number" (some "fr-fr")
            [("number", "7")] =
          .ok ("format_fr", "nice_number_fr", [("number", "7")])) := by
  refine ⟨?_, ?_, ?_, ?_, by decide, by decide, by decide⟩
  · intro h
    rw [caller_eq_resolve]
    unfold dispatchResolve
    rw [if_pos (by simpa using h)]
  · intro hs hmod
    rw [caller_eq_resolve]
    unfold dispatchResolve
    rw [if_neg (by simpa using hs)]
    simp only [hmod]
  · intro md hs hmd hlang
    rw [caller_eq_resolve]
    unfold dispatchResolve
    rw [if_neg (by simpa using hs)]
    simp only [hmd, hlang]
  · intro md ld hs hmd hld hf
    rw [caller_eq_resolve]
    unfold dispatchResolve
    rw [if_neg (by simpa using hs)]
    simp only [hmd, hld, hf]

theorem c1_dispatch_check_order_witness :
    localizedFunctionCaller stEn "format" "nice_number" (some "xx-yy") [] =
      .error (.unsupportedLanguage (effectiveLangCode stEn.defaultLang (some "xx-yy"))) :=
  (c1_dispatch_check_order stEn "format" "nice_number" (some "xx-yy") []).1
    (by decide)

/-- C4: on a successful dispatch, the invocation receives exactly the
caller-supplied named arguments whose names appear among the implementation's
declared parameters; every other argument is dropped and nothing else is
passed (second conjunct: membership in the passed list is membership in the
supplied list together with a declared name). -/
theorem c4_argument_filtering (st : State) (mod f : String)
    (lang : Option String) (args : List (String × String)) (ps : List String)
    (hs : effectiveLangCode st.defaultLang lang ∈ SUPPORTED_LANGUAGES)
    (he : lookupEntry st mod (effectiveLangCode st.defaultLang lang) f = some (.impl ps)) :
    localizedFunctionCaller st mod f lang args =
      .ok (mod ++ "_" ++ effectiveLangCode st.defaultLang lang,
           f ++ "_" ++ effectiveLangCode st.defaultLang lang,
           args.filter fun a => ps.contains a.1)
    ∧ ∀ a, (a ∈ args.filter fun b => ps.contains b.1) ↔
        a ∈ args ∧ ps.contains a.1 := by
  constructor
  · rw [caller_eq_resolve]
    exact lookupEntry_resolve st mod f (effectiveLangCode st.defaultLang lang) args (.impl ps) hs he
  · intro a
    simp [List.mem_filter]

theorem c4_argument_filtering_witness :
    localizedFunctionCaller stEn "format" "nice_number" (some "en-us")
      [("number", "7"), ("bogus", "1"), ("lang", "en-us")] =
      .ok ("format_en", "nice_number_en", [("number", "7"), ("lang", "en-us")]) := by
  have h := (c4_argument_filtering stEn "format" "nice_number" (some "en-us")
    [("number", "7"), ("bogus", "1"), ("lang", "en-us")]
    ["number", "lang", "speech", "denominators"] (by decide) (by decide)).1
  rw [h]
  decide

theorem findFormat_first_match (s : String) (dflt : Tmpl) :
    ∀ (rules : List FormatRule) (i : Nat) (ru : FormatRule),
      rules[i]? = some ru → ru.re s = true →
      (∀ j ru2, j < i → rules[j]? = some ru2 → ru2.re s = false) →
      findFormat rules s dflt = ru.format := by
  intro rules
  induction rules with
  | nil => intro i ru h; simp at h
  | cons r rs ih =>
    intro i ru hget hm hprev
    match i with
    | 0 =>
      simp only [List.getElem?_cons_zero, Option.some.injEq] at hget
      subst hget
      unfold findFormat
      rw [if_pos hm]
    | k + 1 =>
      have h0 : r.re s = false := hprev 0 r (Nat.succ_pos k) (by simp)
      unfold findFormat
      rw [if_neg (by simp [h0])]
      exact ih k ru (by simpa using hget) hm
        (fun j ru2 hj hg => hprev (j + 1) ru2 (by omega) (by simpa using hg))

theorem findFormat_no_match (s : String) (dflt : Tmpl) :
    ∀ rules : List FormatRule, (∀ r ∈ rules, r.re s = false) →
      findFormat rules s dflt = dflt := by
  intro rules
  induction rules with
  | nil => intro; rfl
  | cons r rs ih =>
    intro hall
    unfold findFormat
    rw [if_neg (by simp [hall r (List.mem_cons_self r rs)])]
    exact ih fun r2 h2 => hall r2 (List.mem_cons_of_mem r h2)

/-- C2: template selection walks the category's rule table in ascending rule
index order starting at 1 (list position 0 is the rule with key `"1"`) over
the decimal string of the number, returns the format of the first rule whose
match predicate accepts it, and returns the category's default template when
no rule matches.  The first conjunct forces the earlier-indexed rule whenever
several match, so selection is order-sensitive. -/
theorem c2_rule_selection_order (sec : SectionCfg) (n : Nat) :
    (∀ (i : Nat) (ru : FormatRule), sec.rules[i]? = some ru →
      ru.re (toString n) = true →
      (∀ (j : Nat) (ru2 : FormatRule), j < i → sec.rules[j]? = some ru2 →
        ru2.re (toString n) = false) →
      formatString sec n = ru.format)
    ∧ ((∀ r ∈ sec.rules, r.re (toString n) = false) →
      formatString sec n = sec.default) :=
  ⟨fun i ru hget hm hprev =>
      findFormat_first_match (toString n) sec.default sec.rules i ru hget hm hprev,
   fun hall => findFormat_no_match (toString n) sec.default sec.rules hall⟩

/-- A constructed rule table whose first rule matches every input and whose
second rule matches exactly `"42"`: both accept the input 42. -/
def secC2demo : SectionCfg where
  default := [TmplPart.lit "default template"]
  rules :=
    [{ re := fun _ => true, format := [TmplPart.lit "first rule"] },
     { re := fun s => s == "42", format := [TmplPart.lit "second rule"] }]

theorem c2_rule_selection_order_witness :
    formatString secC2demo 42 = [TmplPart.lit "first rule"] :=
  (c2_rule_selection_order secC2demo 42).1 0
    { re := fun _ => true, format := [TmplPart.lit "first rule"] }
    rfl rfl (fun j _ hj _ => absurd hj (Nat.not_lt_zero j))

/-- C3: the code evaluated at the failing input.  With a word table missing
the key `"3"` and the number 300, the twelve ordinary fields of
`_number_strings` fall back to the literal decimal strings, but `x_in_0x00`
is `None`: its source line (Formatter.py lines 130-131) places the `or`
fallback inside the `get` argument, so the lookup itself has no fallback —
contradicting the claim that every field is a word or the literal string and
never null. -/
theorem c3_x_in_0x00_missing_fallback :
    numberStrings [] 300 =
      { x := "0", xx := "0", x0 := "0", x_in_x0 := "0", xxx := "300",
        x00 := "300", x_in_x00 := "3", xx00 := "300", xx_in_xx00 := "3",
        x000 := "0", x_in_x000 := "0", x0_in_x000 := "0",
        x_in_0x00 := none } := by
  decide

/-- C5: with a reference date, the format key of `date_format` is the one the
claim's policy picks — the year-elision checks run first and the
tomorrow/today/yesterday comparisons overwrite their choice, so the day keys
always take precedence (first conjunct: the selected key equals the
day-checks-first decision tree).  Concretely, for reference 2024-06-05 and
target 2024-06-06 (where year-and-month elision would also apply) the
`tomorrow` key wins, and for target 2023-06-05 with the reference in a
different year the full template including the year is selected. -/
theorem c5_date_format_key_precedence :
    (∀ dt now : Date,
      dateFormatKey dt (some now) =
        if toOrdinal dt = toOrdinal now + 1 then "tomorrow"
        else if toOrdinal dt = toOrdinal now then "today"
        else if toOrdinal dt = toOrdinal now - 1 then "yesterday"
        else if dt.year = now.year ∧ dt.month = now.month ∧ dt.day > now.day then
          "date_full_no_year_month"
        else if dt.year = now.year then "date_full_no_year"
        else "date_full")
    ∧ dateFormatKey ⟨2024, 6, 6⟩ (some ⟨2024, 6, 5⟩) = "tomorrow"
    ∧ dateFormatKey ⟨2023, 6, 5⟩ (some ⟨2024, 6, 5⟩) = "date_full" := by
  refine ⟨?_, by decide, by decide⟩
  intro dt now
  simp only [dateFormatKey]
  split_ifs <;> first | rfl | tauto

theorem foldl_dedup_head (ys : List String) :
    ∀ (a : String) (acc : List String),
      ∃ t, List.foldl (fun acc x => if x ∈ acc then acc else acc ++ [x])
        (a :: acc) ys = a :: t := by
  induction ys with
  | nil => intro a acc; exact ⟨acc, rfl⟩
  | cons y ys ih =>
    intro a acc
    simp only [List.foldl_cons]
    by_cases h : y ∈ a :: acc
    · rw [if_pos h]; exact ih a acc
    · rw [if_neg h]
      have := ih a (acc ++ [y])
      simpa using this

theorem pyDedup_cons (x : String) (xs : List String) :
    ∃ t, pyDedup (x :: xs) = x :: t := by
  unfold pyDedup
  simp only [List.foldl_cons, List.not_mem_nil, if_false, List.nil_append]
  exact foldl_dedup_head xs x []

theorem setDefaultLang_mem (env : Env) (st : State) (code : String)
    (h : code ∈ st.loadedLangs) :
    setDefaultLang env st code = { st with defaultLang := code } := by
  unfold setDefaultLang
  by_cases hd : st.defaultLang = code
  · rw [if_neg (show ¬(st.defaultLang ≠ code) from fun hne => hne hd)]
    rw [if_pos (show st.defaultLang ∈ st.loadedLangs from by rw [hd]; exact h)]
    cases st with
    | mk d l r => simp_all
  · rw [if_pos hd]
    rw [if_pos (show ({ st with defaultLang := code } : State).defaultLang ∈
      ({ st with defaultLang := code } : State).loadedLangs from by simpa using h)]

/-- C8 (amended): for a non-empty language list whose first entry has a
non-empty primary subtag, `set_active_langs` reduces each code to its primary
subtag, replaces the loaded set with the deduplicated list preserving first
occurrence, makes the first entry the new default unless `override_default` is
disabled and the current default's primary code is still present, and
repopulates every previously-populated module against the new loaded set. -/
theorem c8_set_active_langs (env : Env) (st : State) (l0 : String)
    (rest : List String) (b : Bool)
    (h0 : getPrimaryLangCode st.defaultLang (some l0) ≠ "") :
    setActiveLangs env (l0 :: rest) b st =
      .ok { defaultLang :=
              if b || (getPrimaryLangCode st.defaultLang (some st.defaultLang) ∉
                  pyDedup ((l0 :: rest).map fun l =>
                    getPrimaryLangCode st.defaultLang (some l)))
              then getPrimaryLangCode st.defaultLang (some l0)
              else st.defaultLang,
            loadedLangs :=
              pyDedup ((l0 :: rest).map fun l =>
                getPrimaryLangCode st.defaultLang (some l)),
            registry := st.registry.map fun p =>
              (p.1, populateDict env p.1
                (pyDedup ((l0 :: rest).map fun l =>
                  getPrimaryLangCode st.defaultLang (some l)))) } := by
  obtain ⟨t, ht⟩ := pyDedup_cons (getPrimaryLangCode st.defaultLang (some l0))
    (rest.map fun l => getPrimaryLangCode st.defaultLang (some l))
  simp only [setActiveLangs, List.map_cons] at ht ⊢
  simp only [ht]
  have hfull : getFullLangCode st.defaultLang
      (some (getPrimaryLangCode st.defaultLang (some l0))) =
      getPrimaryLangCode st.defaultLang (some l0) := by
    simp [getFullLangCode, pyFalsy, h0]
  by_cases hc : (b || decide (getPrimaryLangCode st.defaultLang (some st.defaultLang) ∉
      getPrimaryLangCode st.defaultLang (some l0) :: t)) = true
  · simp only [hc, if_true]
    rw [hfull, setDefaultLang_mem _ _ _ (by simp)]
    unfold refreshFunctionDict
    simp
  · simp only [Bool.not_eq_true] at hc
    simp only [hc, if_false]
    unfold refreshFunctionDict
    simp

/-- A demonstration state: default language `"de"`, only `"de"` loaded. -/
def stDe : State where
  defaultLang := "de"
  loadedLangs := ["de"]
  registry := [("format", populateDict envDemo "format" ["de"])]

theorem c8_set_active_langs_witness :
    setActiveLangs envDemo ["en-US", "fr-FR", "en-GB"] false stDe =
      .ok { defaultLang := "en",
            loadedLangs := ["en", "fr"],
            registry := [("format", populateDict envDemo "format" ["en", "fr"])] } := by
  have h := c8_set_active_langs envDemo stDe "en-US" ["fr-FR", "en-GB"] false
    (by decide)
  rw [h]
  decide

/-- C8 counterexample to the unrestricted claim: on the empty input list the
source evaluates `__loaded_langs[0]` with an empty loaded list, raising
`IndexError` instead of replacing the loaded set and refreshing. -/
theorem c8_empty_list_counterexample :
    setActiveLangs envDemo [] true stEn = .error .indexError := by
  decide

/-- C7: when the registry entry for the requested language is the
not-implemented sentinel, `nice_number`, `nice_time` and `pronounce_number`
catch the resulting `NotImplementedError`, warn (the Boolean component) and
return the raw string form of their input, while `nice_part_of_day` has no
handler and lets the `FunctionNotLocalizedError` propagate. -/
theorem c7_not_localized_degradation (env : Env) (st : State)
    (lang : Option String) (args : List (String × String)) (number : Int)
    (dtStr : String)
    (hs : effectiveLangCode st.defaultLang lang ∈ SUPPORTED_LANGUAGES)
    (h1 : lookupEntry st "format" (effectiveLangCode st.defaultLang lang)
      "nice_number" = some .notLocalized)
    (h2 : lookupEntry st "format" (effectiveLangCode st.defaultLang lang)
      "nice_time" = some .notLocalized)
    (h3 : lookupEntry st "format" (effectiveLangCode st.defaultLang lang)
      "pronounce_number" = some .notLocalized)
    (h4 : lookupEntry st "format" (effectiveLangCode st.defaultLang lang)
      "nice_part_of_day" = some .notLocalized) :
    niceNumber env st number lang args = (.ok (toString number), true)
    ∧ niceTime env st dtStr lang args = (.ok dtStr, true)
    ∧ pronounceNumber env st number lang args = (.ok (toString number), true)
    ∧ nicePartOfDay env st lang args = .error .functionNotLocalized := by
  have hcall : ∀ f, lookupEntry st "format" (effectiveLangCode st.defaultLang lang) f =
      some .notLocalized →
      callLocalizedFunction env st f lang args = .error .functionNotLocalized := by
    intro f hf
    unfold callLocalizedFunction
    rw [caller_eq_resolve,
        lookupEntry_resolve st "format" f (effectiveLangCode st.defaultLang lang)
          args .notLocalized hs hf]
    rfl
  refine ⟨?_, ?_, ?_, ?_⟩
  · unfold niceNumber
    rw [hcall "nice_number" h1]
    rfl
  · unfold niceTime
    rw [hcall "nice_time" h2]
    rfl
  · unfold pronounceNumber
    rw [hcall "pronounce_number" h3]
    rfl
  · unfold nicePartOfDay
    rw [hcall "nice_part_of_day" h4]

theorem c7_not_localized_degradation_witness :
    niceNumber envDemo stDe 4 (some "de-de") [] = (.ok "4", true)
    ∧ niceTime envDemo stDe "2024-06-05 00:00:00" (some "de-de") [] =
        (.ok "2024-06-05 00:00:00", true)
    ∧ pronounceNumber envDemo stDe 4 (some "de-de") [] = (.ok "4", true)
    ∧ nicePartOfDay envDemo stDe (some "de-de") [] =
        .error .functionNotLocalized :=
  c7_not_localized_degradation envDemo stDe (some "de-de") [] 4
    "2024-06-05 00:00:00" (by decide) (by decide) (by decide) (by decide)
    (by decide)

/-- C10 (amended): `join_list` of an empty list is `""`; of a single element
it is `str(items[0])` with no locale lookup (the result does not depend on the
translation function); of two or more elements it is the `str()` conversions
of all but the last joined by the separator (`", "` when `sep` is not supplied
or is the empty string, otherwise `sep` followed by a space), a space, the
localized connector word, a space, and the final element concatenated without
conversion — so a final element that is not a string raises `TypeError` even
though every other element may be a non-string. -/
theorem c10_join_list (T T2 : String → String) (items : List PyVal)
    (connector : String) (sep : Option String) :
    (joinList T [] connector sep = .ok "")
    ∧ (∀ x, joinList T [x] connector sep = .ok (pyValStr x))
    ∧ (∀ x, joinList T [x] connector sep = joinList T2 [x] connector sep)
    ∧ (∀ s, 2 ≤ items.length → items.getLast? = some (.str s) →
        joinList T items connector sep =
          .ok (String.intercalate
              (match sep with
               | none => ", "
               | some sp => if sp = "" then ", " else sp ++ " ")
              (items.dropLast.map pyValStr)
            ++ " " ++ T connector ++ " " ++ s))
    ∧ (∀ n, 2 ≤ items.length → items.getLast? = some (.intv n) →
        joinList T items connector sep = .error .typeError) := by
  refine ⟨rfl, fun x => rfl, fun x => rfl, ?_, ?_⟩
  · intro s hlen hlast
    match items with
    | [] => simp at hlen
    | [x] => simp at hlen
    | a :: b :: r =>
      simp only [joinList]
      rw [hlast]
  · intro n hlen hlast
    match items with
    | [] => simp at hlen
    | [x] => simp at hlen
    | a :: b :: r =>
      simp only [joinList]
      rw [hlast]

theorem c10_join_list_witness :
    joinList (fun s => s) [.intv 1, .intv 2, .str "c"] "and" none = .ok "1, 2 and c"
    ∧ joinList (fun s => s) [.str "a", .intv 2] "and" (some ";") =
        .error .typeError := by
  constructor
  · have h := (c10_join_list (fun s => s) (fun s => s)
      [.intv 1, .intv 2, .str "c"] "and" none).2.2.2.1 "c" (by decide) (by decide)
    rw [h]
    decide
  · exact (c10_join_list (fun s => s) (fun s => s)
      [.str "a", .intv 2] "and" (some ";")).2.2.2.2 2 (by decide) (by decide)

/-- C10 counterexample to the claim as stated: with a supplied empty
separator, the code falls into Python's `if not sep` branch and joins with
`", "` — the claim's "otherwise sep followed by a space" would give `" "` and
thus `"a b and c"`, not the `"a, b and c"` the code produces. -/
theorem c10_empty_sep_counterexample :
    joinList (fun _ => "and") [.str "a", .str "b", .str "c"] "and" (some "") =
      .ok "a, b and c"
    ∧ (.ok "a, b and c" : Except LFError String) ≠ .ok "a b and c" := by
  exact ⟨by decide, by decide⟩

theorem collapseSpaces_cons_ne (c : Char) (t : List Char) (h : ¬ c = ' ') :
    collapseSpaces (c :: t) = c :: collapseSpaces t := by
  cases t with
  | nil => rfl
  | cons c2 t2 =>
    simp only [collapseSpaces]
    rw [if_neg (by simp [h])]

theorem collapseSpaces_no_double_space :
    ∀ l : List Char, ¬ ([' ', ' '] <:+: collapseSpaces l) := by
  intro l
  induction l with
  | nil => simp [collapseSpaces]
  | cons c t ih =>
    cases t with
    | nil =>
      intro h
      have hlen := h.length_le
      simp [collapseSpaces] at hlen
    | cons c2 t2 =>
      by_cases hc : c = ' ' ∧ c2 = ' '
      · have heq : collapseSpaces (c :: c2 :: t2) = collapseSpaces (c2 :: t2) := by
          simp only [collapseSpaces]
          rw [if_pos (by simp [hc.1, hc.2])]
        rw [heq]
        exact ih
      · have heq : collapseSpaces (c :: c2 :: t2) = c :: collapseSpaces (c2 :: t2) := by
          simp only [collapseSpaces]
          rw [if_neg (by simpa using hc)]
        rw [heq]
        intro h
        rcases List.infix_cons_iff.mp h with hp | hinf
        · rcases List.cons_prefix_cons.mp hp with ⟨hceq, hp2⟩
          have hc2 : ¬ c2 = ' ' := fun h2 => hc ⟨hceq.symm, h2⟩
          rw [collapseSpaces_cons_ne c2 t2 hc2] at hp2
          rcases List.cons_prefix_cons.mp hp2 with ⟨hc2eq, _⟩
          exact hc2 hc2eq.symm
        · exact ih hinf

theorem dropWhile_head_not_py (p : Char → Bool) :
    ∀ (l : List Char) (a : Char), (l.dropWhile p).head? = some a → p a = false := by
  intro l
  induction l with
  | nil => intro a h; simp at h
  | cons c t ih =>
    intro a h
    rw [List.dropWhile_cons] at h
    by_cases hp : p c
    · rw [if_pos hp] at h
      exact ih a h
    · rw [if_neg hp] at h
      simp only [List.head?_cons, Option.some.injEq] at h
      subst h
      simpa using hp

theorem infix_pair_reverse (x : List Char) :
    ([' ', ' '] <:+: x.reverse) ↔ ([' ', ' '] <:+: x) := by
  constructor
  · intro h
    have h2 : ([' ', ' '] : List Char).reverse <:+: x.reverse := by simpa using h
    exact List.reverse_infix.mp h2
  · intro h
    have h2 : ([' ', ' '] : List Char).reverse <:+: x.reverse :=
      List.reverse_infix.mpr h
    simpa using h2

theorem pyStrip_no_double (l : List Char) (h : ¬ ([' ', ' '] <:+: l)) :
    ¬ ([' ', ' '] <:+: pyStrip l) := by
  intro hin
  unfold pyStrip at hin
  have h1 : [' ', ' '] <:+: (l.dropWhile isPySpace).reverse.dropWhile isPySpace :=
    (infix_pair_reverse _).mp hin
  have h2 : [' ', ' '] <:+: (l.dropWhile isPySpace).reverse :=
    h1.trans (List.dropWhile_suffix isPySpace).isInfix
  have h3 : [' ', ' '] <:+: l.dropWhile isPySpace := (infix_pair_reverse _).mp h2
  exact h (h3.trans (List.dropWhile_suffix isPySpace).isInfix)

theorem pyStrip_head (l : List Char) (a : Char)
    (h : (pyStrip l).head? = some a) : isPySpace a = false := by
  unfold pyStrip at h
  rw [List.head?_reverse] at h
  obtain ⟨w, hw⟩ := List.dropWhile_suffix (l := (l.dropWhile isPySpace).reverse) isPySpace
  have hy : ((l.dropWhile isPySpace).reverse).getLast? = some a := by
    rw [← hw, List.getLast?_append, h]
    rfl
  rw [List.getLast?_reverse] at hy
  exact dropWhile_head_not_py isPySpace _ a hy

theorem pyStrip_last (l : List Char) (a : Char)
    (h : (pyStrip l).getLast? = some a) : isPySpace a = false := by
  unfold pyStrip at h
  rw [List.getLast?_reverse] at h
  exact dropWhile_head_not_py isPySpace _ a h

theorem pyStrip_eq_nil_iff (l : List Char) :
    pyStrip l = [] ↔ ∀ c ∈ l, isPySpace c = true := by
  unfold pyStrip
  rw [List.reverse_eq_nil_iff, List.dropWhile_eq_nil_iff]
  constructor
  · intro h c hc
    by_cases hcp : isPySpace c
    · exact hcp
    · exfalso
      have hsplit := List.takeWhile_append_dropWhile (p := isPySpace) (l := l)
      rw [← hsplit] at hc
      rcases List.mem_append.mp hc with h1 | h2
      · exact hcp (List.mem_takeWhile_imp h1)
      · exact hcp (h c (List.mem_reverse.mpr h2))
  · intro h x hx
    exact h x ((List.dropWhile_suffix isPySpace).subset (List.mem_reverse.mp hx))

theorem collapseSpaces_all_space :
    ∀ l : List Char,
      (∀ c ∈ collapseSpaces l, isPySpace c = true) ↔ (∀ c ∈ l, isPySpace c = true) := by
  intro l
  induction l with
  | nil => simp [collapseSpaces]
  | cons c t ih =>
    cases t with
    | nil => simp [collapseSpaces]
    | cons c2 t2 =>
      by_cases hc : c = ' ' ∧ c2 = ' '
      · have heq : collapseSpaces (c :: c2 :: t2) = collapseSpaces (c2 :: t2) := by
          simp only [collapseSpaces]
          rw [if_pos (by simp [hc.1, hc.2])]
        rw [heq, ih, List.forall_mem_cons, hc.1]
        simp [isPySpace]
      · have heq : collapseSpaces (c :: c2 :: t2) = c :: collapseSpaces (c2 :: t2) := by
          simp only [collapseSpaces]
          rw [if_neg (by simpa using hc)]
        rw [heq, List.forall_mem_cons, List.forall_mem_cons, ih]
        try rfl

theorem normalizeSpace_props (s : String) :
    ¬ ([' ', ' '] <:+: (normalizeSpace s).data)
    ∧ (∀ a, (normalizeSpace s).data.head? = some a → isPySpace a = false)
    ∧ (∀ a, (normalizeSpace s).data.getLast? = some a → isPySpace a = false)
    ∧ (normalizeSpace s = "" ↔ ∀ c ∈ s.data, isPySpace c = true) := by
  have hdata : (normalizeSpace s).data = pyStrip (collapseSpaces s.data) := rfl
  refine ⟨?_, ?_, ?_, ?_⟩
  · rw [hdata]
    exact pyStrip_no_double _ (collapseSpaces_no_double_space s.data)
  · intro a h
    rw [hdata] at h
    exact pyStrip_head _ a h
  · intro a h
    rw [hdata] at h
    exact pyStrip_last _ a h
  · constructor
    · intro h
      have hnil : pyStrip (collapseSpaces s.data) = [] := by
        rw [← hdata, h]
      rw [pyStrip_eq_nil_iff] at hnil
      exact (collapseSpaces_all_space s.data).mp hnil
    · intro h
      have hnil : pyStrip (collapseSpaces s.data) = [] :=
        (pyStrip_eq_nil_iff _).mpr ((collapseSpaces_all_space s.data).mpr h)
      show String.mk (pyStrip (collapseSpaces s.data)) = ""
      rw [hnil]

/-- C6 (amended): `year_format` applies the whitespace collapsing and trimming
once, to the fully substituted template (first conjunct), is deterministic
(second conjunct), and its result contains no two consecutive spaces and no
leading or trailing whitespace; it is empty exactly when the substituted
template consists entirely of whitespace (so non-empty whenever the locale's
templates put any non-whitespace character in the rendered year). -/
theorem c6_year_format_normalization (cfg : DTConfig) (y : Nat) (bc : Bool)
    (sraw : String) (hraw : yearFormatRaw cfg y bc = some sraw) :
    yearFormat cfg y bc = some (normalizeSpace sraw)
    ∧ (∀ r, yearFormat cfg y bc = some r → r = normalizeSpace sraw)
    ∧ ¬ ([' ', ' '] <:+: (normalizeSpace sraw).data)
    ∧ (∀ a, (normalizeSpace sraw).data.head? = some a → isPySpace a = false)
    ∧ (∀ a, (normalizeSpace sraw).data.getLast? = some a → isPySpace a = false)
    ∧ (normalizeSpace sraw = "" ↔ ∀ c ∈ sraw.data, isPySpace c = true) := by
  have h1 : yearFormat cfg y bc = some (normalizeSpace sraw) := by
    unfold yearFormat
    rw [hraw]
    rfl
  obtain ⟨p1, p2, p3, p4⟩ := normalizeSpace_props sraw
  refine ⟨h1, ?_, p1, p2, p3, p4⟩
  intro r hr
  rw [h1] at hr
  exact (Option.some.inj hr).symm

/-- A demonstration locale table: every cascade renders its `number` binding
and the top-level year template embeds the thousand cascade with doubled and
trailing spaces. -/
def cfgDemo : DTConfig where
  number := []
  decade_format := { default := [.var "number"], rules := [] }
  hundreds_format := { default := [.var "number"], rules := [] }
  thousand_format := { default := [.var "number"], rules := [] }
  year_format :=
    { default := [.var "formatted_thousand", .lit "  year ", .var "year", .lit " "],
      rules := [] }
  bc := "bc marker"
  weekday := []
  month := []
  date := []
  date_format := []

theorem c6_year_format_normalization_witness :
    yearFormat cfgDemo 1984 false = some (normalizeSpace "1984  year 1984 ")
    ∧ normalizeSpace "1984  year 1984 " = "1984 year 1984" :=
  ⟨(c6_year_format_normalization cfgDemo 1984 false "1984  year 1984 "
      (by decide)).1,
   by decide⟩

/-- A schema-valid locale table all of whose templates are empty. -/
def cfgEmpty : DTConfig where
  number := []
  decade_format := { default := [], rules := [] }
  hundreds_format := { default := [], rules := [] }
  thousand_format := { default := [], rules := [] }
  year_format := { default := [], rules := [] }
  bc := ""
  weekday := []
  month := []
  date := []
  date_format := []

/-- C6 counterexample to the claim as stated: the locale data files are not
part of the source tree, and the documented schema (a required `default`
template per category) admits empty templates, under which `year_format`
returns the empty string — so "the result is not empty" does not follow from
the formatting code. -/
theorem c6_empty_year_counterexample :
    yearFormat cfgEmpty 1984 false = some "" := by
  decide

theorem plainTok_ne (s : String) (h : plainTok s = true) :
    ¬ s = "(" ∧ ¬ s = "|" ∧ ¬ s = ")" := by
  refine ⟨?_, ?_, ?_⟩ <;> intro he <;> rw [he] at h <;> simp [plainTok] at h

theorem parseSentGo_plain_top (acc : List SentItem) (t : String)
    (ts : List String) (h1 : ¬ t = "(") (h2 : ¬ t = "|") (h3 : ¬ t = ")") :
    parseSentGo acc [] (t :: ts) = parseSentGo (acc ++ [SentItem.tok t]) [] ts := by
  simp only [parseSentGo]
  rw [if_neg h1, if_neg h2, if_neg h3]

theorem parseSentGo_plain_frame (acc : List SentItem) (da : List (List SentItem))
    (cur : List SentItem) (rest : List SentFrame) (t : String) (ts : List String)
    (h1 : ¬ t = "(") (h2 : ¬ t = "|") (h3 : ¬ t = ")") :
    parseSentGo acc ((da, cur) :: rest) (t :: ts) =
      parseSentGo acc ((da, cur ++ [SentItem.tok t]) :: rest) ts := by
  simp only [parseSentGo]
  rw [if_neg h1, if_neg h2, if_neg h3]

theorem parseSentGo_open (acc : List SentItem) (stack : List SentFrame)
    (ts : List String) :
    parseSentGo acc stack ("(" :: ts) = parseSentGo acc (([], []) :: stack) ts := by
  cases stack with
  | nil => rfl
  | cons f rest => rfl

theorem parseSentGo_bar_frame (acc : List SentItem) (da : List (List SentItem))
    (cur : List SentItem) (rest : List SentFrame) (ts : List String) :
    parseSentGo acc ((da, cur) :: rest) ("|" :: ts) =
      parseSentGo acc ((da ++ [cur], []) :: rest) ts := rfl

theorem parseSentGo_close_top (acc : List SentItem) (da : List (List SentItem))
    (cur : List SentItem) (ts : List String) :
    parseSentGo acc [(da, cur)] (")" :: ts) =
      parseSentGo (acc ++ [SentItem.grp (da ++ [cur])]) [] ts := rfl

theorem parse_plain_frame :
    ∀ toks : List String, toks.all plainTok = true →
    ∀ (acc : List SentItem) (da : List (List SentItem)) (cur : List SentItem)
      (ts : List String),
      parseSentGo acc [(da, cur)] (toks ++ ts) =
        parseSentGo acc [(da, cur ++ toks.map SentItem.tok)] ts := by
  intro toks
  induction toks with
  | nil => intro _ acc da cur ts; simp
  | cons t toks ih =>
    intro h acc da cur ts
    rw [List.all_cons, Bool.and_eq_true] at h
    obtain ⟨h1, h2⟩ := h
    obtain ⟨ht1, ht2, ht3⟩ := plainTok_ne t h1
    show parseSentGo acc [(da, cur)] (t :: (toks ++ ts)) = _
    rw [parseSentGo_plain_frame acc da cur [] t (toks ++ ts) ht1 ht2 ht3]
    rw [ih h2 acc da (cur ++ [SentItem.tok t]) ts]
    simp

theorem parse_group_frame :
    ∀ alts : List (List String), alts ≠ [] →
      alts.all (fun a => a.all plainTok) = true →
    ∀ (acc : List SentItem) (da : List (List SentItem)) (ts : List String),
      parseSentGo acc [(da, [])] (barJoin alts ++ ")" :: ts) =
        parseSentGo
          (acc ++ [SentItem.grp (da ++ alts.map fun a => a.map SentItem.tok)])
          [] ts := by
  intro alts
  induction alts with
  | nil => intro h; exact absurd rfl h
  | cons a alts ih =>
    intro _ hall acc da ts
    rw [List.all_cons, Bool.and_eq_true] at hall
    obtain ⟨ha, halls⟩ := hall
    cases alts with
    | nil =>
      show parseSentGo acc [(da, [])] (barJoin [a] ++ ")" :: ts) = _
      rw [show barJoin [a] = a from rfl]
      rw [parse_plain_frame a ha acc da [] (")" :: ts)]
      rw [parseSentGo_close_top]
      simp
    | cons a2 alts2 =>
      show parseSentGo acc [(da, [])] (barJoin (a :: a2 :: alts2) ++ ")" :: ts) = _
      rw [show barJoin (a :: a2 :: alts2) = a ++ "|" :: barJoin (a2 :: alts2) from rfl]
      rw [List.append_assoc]
      rw [parse_plain_frame a ha acc da [] (("|" :: barJoin (a2 :: alts2)) ++ ")" :: ts)]
      rw [show (("|" :: barJoin (a2 :: alts2)) ++ ")" :: ts) =
            "|" :: (barJoin (a2 :: alts2) ++ ")" :: ts) from rfl]
      rw [parseSentGo_bar_frame]
      rw [ih (by simp) halls acc (da ++ [[] ++ List.map SentItem.tok a]) ts]
      simp

theorem parse_top :
    ∀ ps : List SentPiece, piecesWF ps = true →
    ∀ (acc : List SentItem) (ts : List String),
      parseSentGo acc [] (flattenPieces ps ++ ts) =
        parseSentGo (acc ++ ps.map pieceItems) [] ts := by
  intro ps
  induction ps with
  | nil => intro _ acc ts; simp [flattenPieces]
  | cons p ps ih =>
    intro h acc ts
    unfold piecesWF at h
    rw [List.all_cons, Bool.and_eq_true] at h
    obtain ⟨hp, hps⟩ := h
    cases p with
    | word s =>
      obtain ⟨ht1, ht2, ht3⟩ := plainTok_ne s hp
      show parseSentGo acc [] (s :: (flattenPieces ps ++ ts)) = _
      rw [parseSentGo_plain_top acc s _ ht1 ht2 ht3]
      rw [ih hps (acc ++ [SentItem.tok s]) ts]
      simp [pieceItems]
    | group alts =>
      simp only [pieceWF, Bool.and_eq_true] at hp
      obtain ⟨hne0, halts⟩ := hp
      have hne : alts ≠ [] := by
        intro he
        subst he
        simp at hne0
      have hsh : flattenPieces (SentPiece.group alts :: ps) ++ ts =
          "(" :: (barJoin alts ++ ")" :: (flattenPieces ps ++ ts)) := by
        show ("(" :: (barJoin alts ++ ")" :: flattenPieces ps)) ++ ts = _
        simp [List.append_assoc]
      rw [hsh, parseSentGo_open,
          parse_group_frame alts hne halts acc [] (flattenPieces ps ++ ts),
          ih hps _ ts]
      simp [pieceItems]

theorem semItems_map_tok :
    ∀ a : List String, semItems (a.map SentItem.tok) = [a] := by
  intro a
  induction a with
  | nil => rfl
  | cons s a ih =>
    show semItems (SentItem.tok s :: a.map SentItem.tok) = [s :: a]
    simp only [semItems, semItem, ih]
    simp

theorem semAlts_map :
    ∀ alts : List (List String),
      semAlts (alts.map fun a => a.map SentItem.tok) = alts := by
  intro alts
  induction alts with
  | nil => rfl
  | cons a alts ih =>
    simp only [List.map_cons, semAlts, semItems_map_tok, ih]
    rfl

theorem semItems_pieces :
    ∀ ps : List SentPiece, semItems (ps.map pieceItems) = bracketProduct ps := by
  intro ps
  induction ps with
  | nil => rfl
  | cons p ps ih =>
    cases p with
    | word s =>
      simp only [List.map_cons, pieceItems, semItems, semItem, ih, bracketProduct]
      simp
    | group alts =>
      simp only [List.map_cons, pieceItems, semItems, semItem, semAlts_map, ih,
        bracketProduct]

/-- C9: for every token sequence denoting literal tokens and `(alt1|…|altN)`
alternation groups (each group non-empty, all tokens plain), bracket expansion
parses the sequence and returns exactly the Cartesian product of the groups'
alternatives: each combination picks one alternative per group in order,
concatenated with the literal tokens between groups, left-to-right; an empty
alternative contributes no tokens. -/
theorem c9_bracket_expansion (ps : List SentPiece) (h : piecesWF ps = true) :
    expandParentheses (flattenPieces ps) = .ok (bracketProduct ps) := by
  unfold expandParentheses parseSent
  have hp := parse_top ps h [] []
  rw [List.append_nil] at hp
  rw [hp]
  simp only [parseSentGo, Except.map, semItems_pieces, List.nil_append]

/-- The claim's tokenized sentence `will it (rain|pour) (today|tomorrow|)`. -/
def demoPieces : List SentPiece :=
  [.word "will", .word "it", .word " ", .group [["rain"], ["pour"]],
   .word " ", .group [["today"], ["tomorrow"], []]]

theorem c9_bracket_expansion_witness :
    expandParentheses
      ["will", "it", " ", "(", "rain", "|", "pour", ")", " ",
       "(", "today", "|", "tomorrow", "|", ")"] =
      .ok [["will", "it", " ", "rain", " ", "today"],
           ["will", "it", " ", "rain", " ", "tomorrow"],
           ["will", "it", " ", "rain", " "],
           ["will", "it", " ", "pour", " ", "today"],
           ["will", "it", " ", "pour", " ", "tomorrow"],
           ["will", "it", " ", "pour", " "]] := by
  have h : expandParentheses
      ["will", "it", " ", "(", "rain", "|", "pour", ")", " ",
       "(", "today", "|", "tomorrow", "|", ")"] =
      .ok (bracketProduct demoPieces) :=
    c9_bracket_expansion demoPieces (by decide)
  rw [h]
  decide
